import Mathlib

/-!
Verification of the remote file-store synchronization layer of the
zen-browser/rices service (src/main.ts GitHubService, src/rices/rices.service.ts
RicesService) against its natural-language specification.

The embedding is a shallow one: each remote call that a method performs is
answered by an explicit oracle (per-attempt environment), and each method is a
pure Lean function returning its outcome together with a trace of observable
events (lock acquisition/release, revision fetches, backoff waits, submitted
mutations).  Paths are modelled as ordered lists of segments, as in the
data model of the specification; base64 transport encoding of file content is
elided (it is a bijection on the transported string, and the emptiness check
the code performs on the encoded text coincides with emptiness of the content).
-/

namespace ZenRices

/-- Decidable equality of outcome values, used to evaluate the concrete
runs in the witnesses below. -/
instance {E A : Type} [DecidableEq E] [DecidableEq A] : DecidableEq (Except E A) :=
  fun x y =>
    match x, y with
    | .ok a, .ok b =>
      if h : a = b then isTrue (by rw [h]) else isFalse (by simp [h])
    | .error a, .error b =>
      if h : a = b then isTrue (by rw [h]) else isFalse (by simp [h])
    | .ok _, .error _ => isFalse (by simp)
    | .error _, .ok _ => isFalse (by simp)

/-- A file path: an ordered list of segments (FileHandle.path of the spec). -/
abbrev Path := List String

/-- path.dirname on a segment list: all segments but the last. -/
def dirname (p : Path) : Path := p.dropLast

/-- Render a segment path the way the message strings of the service do. -/
def joinPath (p : Path) : String := String.intercalate "/" p

/-- An error raised by a remote-store call, as the untyped handlers see it:
an octokit response error carries a numeric status and a message; a plain
JS Error carries only a message (its status reads as undefined). -/
inductive RemoteErr
  | octo (status : Nat) (msg : String)
  | js (msg : String)
  deriving DecidableEq, Repr

/-- error.status as read by the untyped catch handlers (none = undefined). -/
def RemoteErr.statusOf : RemoteErr → Option Nat
  | .octo s _ => some s
  | .js _ => none

/-- error.message. -/
def RemoteErr.msgOf : RemoteErr → String
  | .octo _ m => m
  | .js m => m

/-- An error thrown out of a GitHubService method: either a wrapped
InternalServerErrorException with its message string, or another error
rethrown unchanged. -/
inductive ThrownError
  | internalServer (msg : String)
  | raised (e : RemoteErr)
  deriving DecidableEq, Repr

/-- One entry of a directory listing payload: name and type (file or dir). -/
structure EntryInfo where
  name : String
  type : String
  deriving DecidableEq, Repr

/-- The answer of the remote to octokit.repos.getContent: a single-file payload
(which always carries a sha and a content field, possibly empty), an array
payload for a directory (which carries neither), or a thrown error. -/
inductive ContentResp
  | file (sha : String) (content : String)
  | dirListing (entries : List EntryInfo)
  | fail (e : RemoteErr)
  deriving DecidableEq, Repr

/-- The answer of the remote to a mutation call (createOrUpdateFileContents or
deleteFile): success, or a thrown error. -/
inductive MutRes
  | ok
  | fail (e : RemoteErr)
  deriving DecidableEq, Repr

/-- Observable events of a method run.  Lock events record operations on the
in-memory directoryLocks table; fetchRev records a getContent call made to
obtain the current revision (tagged with the attempt number); wait records a
backoff delay in milliseconds; submitPut and submitDelete record mutations
actually submitted to the remote store, with the revision attached. -/
inductive Event
  | acquireLock (dir : Path)
  | releaseLock (dir : Path)
  | fetchRev (p : Path) (attempt : Nat)
  | wait (ms : Nat)
  | submitPut (p : Path) (sha : Option String) (attempt : Nat)
  | submitDelete (p : Path) (sha : String) (attempt : Nat)
  deriving DecidableEq, Repr

/-- The answers of the remote during one attempt of createOrUpdateFile: the
getContent response for the sha probe, and the createOrUpdateFileContents
response for the submission. -/
structure WriteEnv where
  get : ContentResp
  put : MutRes

/-- The sha probe at the top of each write attempt (main.ts lines 139-164):
a file payload yields its sha; an array payload has no sha field so sha stays
undefined; a 404 means the file does not exist and sha stays undefined; any
other getContent error is rethrown into the catch handler of the attempt. -/
def fetchShaForWrite : ContentResp → Except RemoteErr (Option String)
  | .file sha _ => .ok (some sha)
  | .dirListing _ => .ok none
  | .fail e => if e.statusOf = some 404 then .ok none else .error e

/-- The message of the InternalServerErrorException thrown by
createOrUpdateFile — the same template for the persistent-conflict branch
(main.ts lines 193-195) and the generic branch (lines 201-203). -/
def writeErrMsg (filePath : Path) (e : RemoteErr) : String :=
  "Error creating/updating file " ++ joinPath filePath ++ ": " ++ e.msgOf

/-- The catch handler of a write attempt (main.ts lines 179-204): a 409
before the last attempt waits backoffTime = 1000 * 2^(attempt-1) ms and
retries (rest is the remainder of the loop); a 409 on the last attempt and
any other error both throw an InternalServerErrorException built from the
same message template.  evs are the events of the failed attempt. -/
def writeCatch (filePath : Path) (retries attempt : Nat) (e : RemoteErr)
    (evs : List Event) (rest : Except ThrownError Unit × List Event) :
    Except ThrownError Unit × List Event :=
  if e.statusOf = some 409 ∧ attempt < retries then
    (rest.1, evs ++ Event.wait (1000 * 2 ^ (attempt - 1)) :: rest.2)
  else if e.statusOf = some 409 then
    (.error (.internalServer (writeErrMsg filePath e)), evs)
  else
    (.error (.internalServer (writeErrMsg filePath e)), evs)

/-- The retry loop of createOrUpdateFile (main.ts lines 137-205), run from a
given attempt number with fuel = retries - attempt + 1 remaining iterations.
Each iteration probes the sha, submits the mutation, and on error runs the
catch handler. -/
def createOrUpdateFileLoop (env : Nat → WriteEnv) (filePath : Path)
    (retries : Nat) : Nat → Nat → Except ThrownError Unit × List Event
  | _, 0 => (.ok (), [])
  | attempt, fuel + 1 =>
    match fetchShaForWrite (env attempt).get with
    | .error e => writeCatch filePath retries attempt e
        [.fetchRev filePath attempt]
        (createOrUpdateFileLoop env filePath retries (attempt + 1) fuel)
    | .ok sha =>
      match (env attempt).put with
      | .ok => (.ok (), [.fetchRev filePath attempt, .submitPut filePath sha attempt])
      | .fail e => writeCatch filePath retries attempt e
          [.fetchRev filePath attempt, .submitPut filePath sha attempt]
          (createOrUpdateFileLoop env filePath retries (attempt + 1) fuel)

/-- GitHubService.createOrUpdateFile (main.ts lines 128-209): locks the
directory of the path, runs the retry loop, and unlocks in a finally block,
so the release event closes the trace on every outcome. -/
def createOrUpdateFile (env : Nat → WriteEnv) (filePath : Path)
    (retries : Nat) : Except ThrownError Unit × List Event :=
  let directoryPath := dirname filePath
  let r := createOrUpdateFileLoop env filePath retries 1 retries
  (r.1, Event.acquireLock directoryPath :: r.2 ++ [Event.releaseLock directoryPath])

/-- The answers of the remote during one attempt of deleteFile: the getContent
response for the sha fetch, and the deleteFile response for the submission. -/
structure DeleteEnv where
  get : ContentResp
  del : MutRes

/-- The message of the plain Error thrown when the getContent payload has no
sha field (main.ts line 233). -/
def noShaMsg (filePath : Path) : String :=
  "The file " ++ joinPath filePath ++ " does not have a valid SHA"

/-- The message of the InternalServerErrorException thrown by deleteFile on a
persistent conflict (main.ts lines 264-266). -/
def deleteErrMsg (filePath : Path) (e : RemoteErr) : String :=
  "Error deleting file " ++ joinPath filePath ++ ": " ++ e.msgOf

/-- The sha fetch at the top of each delete attempt (main.ts lines 224-236):
a file payload yields its sha; an array payload lacks a sha field and a plain
Error is thrown; a getContent error is rethrown into the catch handler. -/
def fetchShaForDelete (filePath : Path) : ContentResp → Except RemoteErr String
  | .file sha _ => .ok sha
  | .dirListing _ => .error (.js (noShaMsg filePath))
  | .fail e => .error e

/-- The catch handler of a delete attempt (main.ts lines 250-284): a 409
before the last attempt waits 1000 * 2^(attempt-1) ms and retries (rest is
the remainder of the loop); a 409 on the last attempt throws an
InternalServerErrorException; a 404 returns successfully (idempotent delete);
any other error is rethrown unchanged (the outer catch at lines 286-289 only
logs and rethrows). -/
def deleteCatch (filePath : Path) (retries attempt : Nat) (e : RemoteErr)
    (evs : List Event) (rest : Except ThrownError Unit × List Event) :
    Except ThrownError Unit × List Event :=
  if e.statusOf = some 409 ∧ attempt < retries then
    (rest.1, evs ++ Event.wait (1000 * 2 ^ (attempt - 1)) :: rest.2)
  else if e.statusOf = some 409 then
    (.error (.internalServer (deleteErrMsg filePath e)), evs)
  else if e.statusOf = some 404 then
    (.ok (), evs)
  else
    (.error (.raised e), evs)

/-- The retry loop of deleteFile (main.ts lines 222-285), run from a given
attempt number with fuel = retries - attempt + 1 remaining iterations. -/
def deleteFileLoop (env : Nat → DeleteEnv) (filePath : Path)
    (retries : Nat) : Nat → Nat → Except ThrownError Unit × List Event
  | _, 0 => (.ok (), [])
  | attempt, fuel + 1 =>
    match fetchShaForDelete filePath (env attempt).get with
    | .error e => deleteCatch filePath retries attempt e
        [.fetchRev filePath attempt]
        (deleteFileLoop env filePath retries (attempt + 1) fuel)
    | .ok sha =>
      match (env attempt).del with
      | .ok => (.ok (), [.fetchRev filePath attempt, .submitDelete filePath sha attempt])
      | .fail e => deleteCatch filePath retries attempt e
          [.fetchRev filePath attempt, .submitDelete filePath sha attempt]
          (deleteFileLoop env filePath retries (attempt + 1) fuel)

/-- GitHubService.deleteFile (main.ts lines 216-290): runs the retry loop.
Unlike createOrUpdateFile it touches no directory lock. -/
def deleteFile (env : Nat → DeleteEnv) (filePath : Path)
    (retries : Nat) : Except ThrownError Unit × List Event :=
  deleteFileLoop env filePath retries 1 retries

/-- GitHubService.getFileContent (main.ts lines 297-329): a file payload with
a non-empty content field yields the content; any other successful payload
(empty content field — the truthiness check on data.content — or an array
payload without a content field) yields null; a 404 yields null; any other
error is rethrown unchanged. -/
def getFileContent : ContentResp → Except RemoteErr (Option String)
  | .file _ content => if content ≠ "" then .ok (some content) else .ok none
  | .dirListing _ => .ok none
  | .fail e => if e.statusOf = some 404 then .ok none else .error e

/-- GitHubService.listFilesInDirectory (main.ts lines 336-365): an array
payload yields the entry names; a non-array payload yields the empty list;
a 404 yields the empty list; any other error is rethrown unchanged. -/
def listFilesInDirectory : ContentResp → Except RemoteErr (List String)
  | .dirListing entries => .ok (entries.map EntryInfo.name)
  | .file _ _ => .ok []
  | .fail e => if e.statusOf = some 404 then .ok [] else .error e

/-- Configuration as read by the service: GITHUB_TOKEN via get (undefined
when missing), and GITHUB_REPO_OWNER / GITHUB_REPO_NAME defaulted to the
empty string in the constructor (main.ts lines 67-68). -/
structure GitHubConfig where
  token : Option String
  repoOwner : String
  repoName : String

/-- The answer of the remote to octokit.repos.get for the configured repository. -/
inductive RepoResp
  | ok (defaultBranch : String)
  | fail (e : RemoteErr)

/-- GitHubService.onModuleInit (main.ts lines 71-119): throws a plain Error
when the token is missing or empty, then when either repository identifier
is empty; otherwise performs exactly one repository lookup (the single
RepoResp consumed — there is no retry) and either stores the default branch
or rethrows the lookup error unchanged. -/
def onModuleInit (cfg : GitHubConfig) (repoGet : RepoResp) :
    Except ThrownError String :=
  if cfg.token.getD "" = "" then
    .error (.raised (.js "GITHUB_TOKEN is not defined"))
  else if cfg.repoOwner = "" ∨ cfg.repoName = "" then
    .error (.raised (.js "GITHUB_REPO_OWNER or GITHUB_REPO_NAME is not defined"))
  else
    match repoGet with
    | .ok branch => .ok branch
    | .fail e => .error (.raised e)

/-- Replay of the lock events of a trace on one key of the in-memory
directoryLocks table (Map set true on acquire, set false on release):
whether directory d is marked held after the trace, starting from init. -/
def heldAfter (d : Path) (evs : List Event) (init : Bool) : Bool :=
  evs.foldl (fun h e =>
    match e with
    | .acquireLock d2 => if d2 = d then true else h
    | .releaseLock d2 => if d2 = d then false else h
    | _ => h) init

/-- The backoff waits of a trace, in order, in milliseconds. -/
def waits (evs : List Event) : List Nat :=
  evs.filterMap (fun e => match e with | .wait ms => some ms | _ => none)

/-- Is the event a lock-table operation? -/
def Event.isLockOp : Event → Bool
  | .acquireLock _ => true
  | .releaseLock _ => true
  | _ => false

/-- Is the event a submitted mutation (put or delete)? -/
def Event.isSubmit : Event → Bool
  | .submitPut _ _ _ => true
  | .submitDelete _ _ _ => true
  | _ => false

/-- A submitted put that the remote answered with success, per the oracle. -/
def isSuccessfulPut (env : Nat → WriteEnv) : Event → Bool
  | .submitPut _ _ a => (env a).put = MutRes.ok
  | _ => false

/-- The remote repository modelled as the list of file paths it stores (git
tracks only files; a directory exists exactly when some file lies below it). -/
abbrev Store := List Path

/-- When q lies strictly below directory dir, the name of the child of dir on
the way to q; none otherwise. -/
def childOf : Path → Path → Option String
  | [], s :: _ => some s
  | [], [] => none
  | _ :: _, [] => none
  | d :: ds, s :: qs => if s = d then childOf ds qs else none

/-- The names of the immediate children of dir in the store: the entry names
a getContent directory listing would return. -/
def childNames (fs : Store) (dir : Path) : List String :=
  (fs.filterMap (childOf dir)).dedup

/-- The listing entries for dir: a child is of type file when the store holds
a file at exactly dir/name, and of type dir otherwise (files lie deeper). -/
def storeEntries (fs : Store) (dir : Path) : List EntryInfo :=
  (childNames fs dir).map (fun n =>
    ⟨n, if dir ++ [n] ∈ fs then "file" else "dir"⟩)

/-- Placeholder revision and content of a stored file; their values are
irrelevant to the claims settled against the store model. -/
def storeSha (_fs : Store) (_p : Path) : String := "sha"

/-- See storeSha. -/
def storeContent (_fs : Store) (_p : Path) : String := "content"

/-- The answer the store gives to getContent: a file payload for a stored file, a
directory listing for a path with files strictly below it, 404 otherwise. -/
def storeGetContent (fs : Store) (p : Path) : ContentResp :=
  if p ∈ fs then .file (storeSha fs p) (storeContent fs p)
  else if childNames fs p ≠ [] then .dirListing (storeEntries fs p)
  else .fail (.octo 404 "Not Found")

/-- deleteFile run against a concrete quiescent store: every remote call is
answered from the store (with no concurrent writer the store never answers
Conflict, and the delete submission — reached exactly when the path is a
stored file — succeeds and removes the path). -/
def deleteFileStore (fs : Store) (p : Path) : Except ThrownError Unit × Store :=
  match deleteFile (fun _ => ⟨storeGetContent fs p, .ok⟩) p 3 with
  | (.ok _, _) => (.ok (), if p ∈ fs then fs.erase p else fs)
  | (.error e, _) => (.error e, fs)

/-- Modelled from the spec: GitHubService.deleteFolder is called by
RicesService.remove (rices.service.ts lines 543-546) but its implementation
is not in the provided source.  Per the specification, deleteSubtree finally
"requests removal of the (now-empty) directory placeholder itself"; we model
this as removing the .gitkeep placeholder entry of the directory, the placeholder
file the service documentation says it creates for directories. -/
def deleteFolder (fs : Store) (folder : Path) : Except ThrownError Unit × Store :=
  (.ok (), fs.filter (fun q => q ≠ folder ++ [".gitkeep"]))

/-- The deletion loop of RicesService.remove (rices.service.ts lines
533-540): delete each listed name as a file under the folder, in order; an
exception aborts the loop and propagates.  When the loop completes, the
folder placeholder removal is requested (lines 543-546). -/
def removeLoop (folder : Path) : List String → Store → Except ThrownError Unit × Store
  | [], s => deleteFolder s folder
  | f :: rest, s =>
    match deleteFileStore s (folder ++ [f]) with
    | (.ok _, s2) => removeLoop folder rest s2
    | (.error e, s2) => (.error e, s2)

/-- The GitHub-side portion of RicesService.remove (rices.service.ts lines
516-547), after the metadata-store steps (excluded collaborators): list the
files in the rice folder, delete each, then remove the folder itself. -/
def removeRiceFiles (fs : Store) (folder : Path) : Except ThrownError Unit × Store :=
  match listFilesInDirectory (storeGetContent fs folder) with
  | .error e => (.error (.raised e), fs)
  | .ok files => removeLoop folder files fs

/-- The revision the remote reported for a file at the probed path: the sha
of a file payload, and none when no file exists there (a not-found answer, or
a directory listing — the path holds no file). -/
def fetchedRevision : ContentResp → Option String
  | .file sha _ => some sha
  | _ => none

/-- Decidable flatness of a store below a directory: whenever a stored path
lies strictly below folder, it is a direct child (no deeper nesting). -/
def flatUnder (folder q : Path) : Bool :=
  match childOf folder q with
  | none => true
  | some n => decide (q = folder ++ [n])

/-- C1: a write whose remote store answers write-conflict (status 409) on
attempts 1 and 2 and succeeds on attempt 3 performs exactly two backoff waits,
of 1000 * 2^(1-1) = 1000 ms and 1000 * 2^(2-1) = 2000 ms, each computed after
the failing attempt and before the retry (never before the first attempt, as
the full trace shows), and submits exactly one mutation that the remote
answers with success. -/
theorem c1_conflict_retry_backoff
    (p : Path) (env : Nat → WriteEnv) (g1 g2 g3 : ContentResp)
    (s1 s2 s3 : Option String) (m1 m2 : String)
    (h1 : env 1 = ⟨g1, .fail (.octo 409 m1)⟩)
    (h2 : env 2 = ⟨g2, .fail (.octo 409 m2)⟩)
    (h3 : env 3 = ⟨g3, .ok⟩)
    (hg1 : fetchShaForWrite g1 = .ok s1)
    (hg2 : fetchShaForWrite g2 = .ok s2)
    (hg3 : fetchShaForWrite g3 = .ok s3) :
    createOrUpdateFile env p 3 =
      (.ok (), [.acquireLock (dirname p),
        .fetchRev p 1, .submitPut p s1 1, .wait (1000 * 2 ^ (1 - 1)),
        .fetchRev p 2, .submitPut p s2 2, .wait (1000 * 2 ^ (2 - 1)),
        .fetchRev p 3, .submitPut p s3 3, .releaseLock (dirname p)]) ∧
      waits (createOrUpdateFile env p 3).2 = [1000, 2000] ∧
      ((createOrUpdateFile env p 3).2.filter (isSuccessfulPut env)).length = 1 := by
  have htrace : createOrUpdateFile env p 3 =
      (.ok (), [.acquireLock (dirname p),
        .fetchRev p 1, .submitPut p s1 1, .wait 1000,
        .fetchRev p 2, .submitPut p s2 2, .wait 2000,
        .fetchRev p 3, .submitPut p s3 3, .releaseLock (dirname p)]) := by
    simp [createOrUpdateFile, createOrUpdateFileLoop, writeCatch,
      h1, h2, h3, hg1, hg2, hg3, RemoteErr.statusOf]
  refine ⟨by simpa using htrace, ?_, ?_⟩
  · rw [htrace]
    simp [waits]
  · rw [htrace]
    simp [isSuccessfulPut, h1, h2, h3]

/-- Witness for C1 at a concrete environment: file absent, two conflicts,
then success. -/
theorem c1_conflict_retry_backoff_witness :
    createOrUpdateFile
        (fun a => if a = 1 then ⟨.fail (.octo 404 "nf"), .fail (.octo 409 "c1")⟩
          else if a = 2 then ⟨.fail (.octo 404 "nf"), .fail (.octo 409 "c2")⟩
          else ⟨.fail (.octo 404 "nf"), .ok⟩)
        ["rices", "r1", "rice.json"] 3 =
      (.ok (), [.acquireLock (dirname ["rices", "r1", "rice.json"]),
        .fetchRev ["rices", "r1", "rice.json"] 1,
        .submitPut ["rices", "r1", "rice.json"] none 1, .wait (1000 * 2 ^ (1 - 1)),
        .fetchRev ["rices", "r1", "rice.json"] 2,
        .submitPut ["rices", "r1", "rice.json"] none 2, .wait (1000 * 2 ^ (2 - 1)),
        .fetchRev ["rices", "r1", "rice.json"] 3,
        .submitPut ["rices", "r1", "rice.json"] none 3,
        .releaseLock (dirname ["rices", "r1", "rice.json"])]) ∧
      waits (createOrUpdateFile
        (fun a => if a = 1 then ⟨.fail (.octo 404 "nf"), .fail (.octo 409 "c1")⟩
          else if a = 2 then ⟨.fail (.octo 404 "nf"), .fail (.octo 409 "c2")⟩
          else ⟨.fail (.octo 404 "nf"), .ok⟩)
        ["rices", "r1", "rice.json"] 3).2 = [1000, 2000] ∧
      ((createOrUpdateFile
        (fun a => if a = 1 then ⟨.fail (.octo 404 "nf"), .fail (.octo 409 "c1")⟩
          else if a = 2 then ⟨.fail (.octo 404 "nf"), .fail (.octo 409 "c2")⟩
          else ⟨.fail (.octo 404 "nf"), .ok⟩)
        ["rices", "r1", "rice.json"] 3).2.filter (isSuccessfulPut
        (fun a => if a = 1 then ⟨.fail (.octo 404 "nf"), .fail (.octo 409 "c1")⟩
          else if a = 2 then ⟨.fail (.octo 404 "nf"), .fail (.octo 409 "c2")⟩
          else ⟨.fail (.octo 404 "nf"), .ok⟩))).length = 1 :=
  c1_conflict_retry_backoff ["rices", "r1", "rice.json"] _
    (.fail (.octo 404 "nf")) (.fail (.octo 404 "nf")) (.fail (.octo 404 "nf"))
    none none none "c1" "c2" rfl rfl rfl rfl rfl rfl

/-- C2: however a write terminates — success, conflict exhaustion, any other
error — the directory lock of the parent of the path is unheld after the call (the
release runs in a finally block), whatever its prior state, so a subsequent
write to the same directory can acquire it. -/
theorem c2_lock_released_in_all_cases
    (env : Nat → WriteEnv) (p : Path) (retries : Nat) (init : Bool) :
    heldAfter (dirname p) (createOrUpdateFile env p retries).2 init = false := by
  simp [createOrUpdateFile, heldAfter, List.foldl_append]

/-- C5 counterexample: write-conflict exhaustion and a generic remote failure
surface from createOrUpdateFile as the very same error value — the same
InternalServerErrorException with the same message — so a caller cannot treat
the two cases differently.  The first run conflicts (409) on all three
attempts; the second fails with a generic 500 on its first attempt. -/
theorem c5_counterexample :
    (createOrUpdateFile
        (fun _ => ⟨.fail (.octo 404 "nf"), .fail (.octo 409 "boom")⟩)
        ["rices", "r1", "rice.json"] 3).1 =
      .error (.internalServer
        "Error creating/updating file rices/r1/rice.json: boom") ∧
    (createOrUpdateFile
        (fun _ => ⟨.fail (.octo 404 "nf"), .fail (.octo 500 "boom")⟩)
        ["rices", "r1", "rice.json"] 3).1 =
      .error (.internalServer
        "Error creating/updating file rices/r1/rice.json: boom") := by decide

/-- C5 amended: deleteFile does surface a persistent conflict as an
InternalServerErrorException while rethrowing any other remote failure
unchanged, so its callers can distinguish the two; createOrUpdateFile wraps
a persistent conflict and any other terminal failure in an
InternalServerErrorException built from the same message template, so its
callers cannot distinguish them by the surfaced error. -/
theorem c5_amended
    (p q q2 : Path) (denv denv2 : Nat → DeleteEnv) (wenv wenv2 : Nat → WriteEnv)
    (s1 s2 s3 c1 c2 c3 sD cD : String) (m1 m2 m3 mD mw1 mw2 mw3 mwt : String)
    (st : Nat) (g1 g2 g3 gW : ContentResp) (sh1 sh2 sh3 shW : Option String)
    (hd1 : denv 1 = ⟨.file s1 c1, .fail (.octo 409 m1)⟩)
    (hd2 : denv 2 = ⟨.file s2 c2, .fail (.octo 409 m2)⟩)
    (hd3 : denv 3 = ⟨.file s3 c3, .fail (.octo 409 m3)⟩)
    (hdt : denv2 1 = ⟨.file sD cD, .fail (.octo st mD)⟩)
    (hst409 : st ≠ 409) (hst404 : st ≠ 404)
    (hw1 : wenv 1 = ⟨g1, .fail (.octo 409 mw1)⟩)
    (hw2 : wenv 2 = ⟨g2, .fail (.octo 409 mw2)⟩)
    (hw3 : wenv 3 = ⟨g3, .fail (.octo 409 mw3)⟩)
    (hwg1 : fetchShaForWrite g1 = .ok sh1)
    (hwg2 : fetchShaForWrite g2 = .ok sh2)
    (hwg3 : fetchShaForWrite g3 = .ok sh3)
    (hwt : wenv2 1 = ⟨gW, .fail (.octo st mwt)⟩)
    (hwgt : fetchShaForWrite gW = .ok shW) :
    (deleteFile denv q 3).1 =
      .error (.internalServer (deleteErrMsg q (.octo 409 m3))) ∧
    (deleteFile denv2 q2 3).1 = .error (.raised (.octo st mD)) ∧
    (createOrUpdateFile wenv p 3).1 =
      .error (.internalServer (writeErrMsg p (.octo 409 mw3))) ∧
    (createOrUpdateFile wenv2 p 3).1 =
      .error (.internalServer (writeErrMsg p (.octo st mwt))) := by
  refine ⟨?_, ?_, ?_, ?_⟩
  · simp [deleteFile, deleteFileLoop, deleteCatch, hd1, hd2, hd3,
      fetchShaForDelete, RemoteErr.statusOf]
  · simp [deleteFile, deleteFileLoop, deleteCatch, hdt, fetchShaForDelete,
      RemoteErr.statusOf, hst409, hst404]
  · simp [createOrUpdateFile, createOrUpdateFileLoop, writeCatch, hw1, hw2, hw3,
      hwg1, hwg2, hwg3, RemoteErr.statusOf]
  · simp [createOrUpdateFile, createOrUpdateFileLoop, writeCatch, hwt, hwgt,
      RemoteErr.statusOf, hst409]

/-- Witness for C5 amended at concrete environments (transport status 500). -/
theorem c5_amended_witness :
    (deleteFile (fun a =>
        if a = 1 then ⟨.file "s1" "c1", .fail (.octo 409 "d1")⟩
        else if a = 2 then ⟨.file "s2" "c2", .fail (.octo 409 "d2")⟩
        else ⟨.file "s3" "c3", .fail (.octo 409 "d3")⟩) ["a", "f"] 3).1 =
      .error (.internalServer (deleteErrMsg ["a", "f"] (.octo 409 "d3"))) ∧
    (deleteFile (fun _ => ⟨.file "sD" "cD", .fail (.octo 500 "down")⟩)
        ["a", "g"] 3).1 = .error (.raised (.octo 500 "down")) ∧
    (createOrUpdateFile (fun a =>
        if a = 1 then ⟨.fail (.octo 404 "nf"), .fail (.octo 409 "w1")⟩
        else if a = 2 then ⟨.fail (.octo 404 "nf"), .fail (.octo 409 "w2")⟩
        else ⟨.fail (.octo 404 "nf"), .fail (.octo 409 "w3")⟩) ["a", "h"] 3).1 =
      .error (.internalServer (writeErrMsg ["a", "h"] (.octo 409 "w3"))) ∧
    (createOrUpdateFile (fun _ => ⟨.fail (.octo 404 "nf"), .fail (.octo 500 "wt")⟩)
        ["a", "h"] 3).1 =
      .error (.internalServer (writeErrMsg ["a", "h"] (.octo 500 "wt"))) :=
  c5_amended ["a", "h"] ["a", "f"] ["a", "g"] _ _ _ _
    "s1" "s2" "s3" "c1" "c2" "c3" "sD" "cD" "d1" "d2" "d3" "down"
    "w1" "w2" "w3" "wt" 500
    (.fail (.octo 404 "nf")) (.fail (.octo 404 "nf")) (.fail (.octo 404 "nf"))
    (.fail (.octo 404 "nf")) none none none none
    rfl rfl rfl rfl (by decide) (by decide)
    rfl rfl rfl rfl rfl rfl rfl rfl

/-- C6: a delete for which the remote reports not-found — at the revision
fetch (the path never existed or disappeared before the fetch) or at the
delete submission itself — returns successfully, submitting no mutation in
the former case (idempotent delete). -/
theorem c6_idempotent_delete
    (denv denv2 : Nat → DeleteEnv) (p q : Path) (m m2 s c : String)
    (h1 : (denv 1).get = .fail (.octo 404 m))
    (h2 : denv2 1 = ⟨.file s c, .fail (.octo 404 m2)⟩) :
    deleteFile denv p 3 = (.ok (), [.fetchRev p 1]) ∧
    deleteFile denv2 q 3 = (.ok (), [.fetchRev q 1, .submitDelete q s 1]) := by
  constructor
  · simp [deleteFile, deleteFileLoop, deleteCatch, h1, fetchShaForDelete,
      RemoteErr.statusOf]
  · simp [deleteFile, deleteFileLoop, deleteCatch, h2, fetchShaForDelete,
      RemoteErr.statusOf]

/-- Witness for C6 at concrete environments. -/
theorem c6_idempotent_delete_witness :
    deleteFile (fun _ => ⟨.fail (.octo 404 "Not Found"), .ok⟩)
      ["rices", "r1", "rice.json"] 3 =
      (.ok (), [.fetchRev ["rices", "r1", "rice.json"] 1]) ∧
    deleteFile (fun _ => ⟨.file "s" "c", .fail (.octo 404 "gone")⟩)
      ["rices", "r2", "rice.json"] 3 =
      (.ok (), [.fetchRev ["rices", "r2", "rice.json"] 1,
        .submitDelete ["rices", "r2", "rice.json"] "s" 1]) :=
  c6_idempotent_delete _ _ ["rices", "r1", "rice.json"] ["rices", "r2", "rice.json"]
    "Not Found" "gone" "s" "c" rfl rfl

/-- C7: a not-found answer makes getFileContent return null and
listFilesInDirectory return the empty list, while any other remote failure —
an octokit error with another status, or a plain error — propagates to the
caller unchanged. -/
theorem c7_not_found_absorbed
    (m : String) (s : Nat) (hs : s ≠ 404) :
    getFileContent (.fail (.octo 404 m)) = .ok none ∧
    listFilesInDirectory (.fail (.octo 404 m)) = .ok [] ∧
    getFileContent (.fail (.octo s m)) = .error (.octo s m) ∧
    listFilesInDirectory (.fail (.octo s m)) = .error (.octo s m) ∧
    getFileContent (.fail (.js m)) = .error (.js m) ∧
    listFilesInDirectory (.fail (.js m)) = .error (.js m) := by
  simp [getFileContent, listFilesInDirectory, RemoteErr.statusOf, hs]

/-- Witness for C7 at a concrete status 500. -/
theorem c7_not_found_absorbed_witness :
    getFileContent (.fail (.octo 404 "nf")) = .ok none ∧
    listFilesInDirectory (.fail (.octo 404 "nf")) = .ok [] ∧
    getFileContent (.fail (.octo 500 "nf")) = .error (.octo 500 "nf") ∧
    listFilesInDirectory (.fail (.octo 500 "nf")) = .error (.octo 500 "nf") ∧
    getFileContent (.fail (.js "nf")) = .error (.js "nf") ∧
    listFilesInDirectory (.fail (.js "nf")) = .error (.js "nf") :=
  c7_not_found_absorbed "nf" 500 (by decide)

/-- C9: initialization fails with a plain (uncaught, fatal) error when the
token is missing or empty, or when either repository identifier is empty, or
when the single repository lookup it performs fails — the lookup error is
rethrown unchanged, with no retry (the embedding consumes exactly one lookup
response) — and otherwise stores the default branch of the repository. -/
theorem c9_init_fatal_or_branch
    (cfg : GitHubConfig) (branch : String) (e : RemoteErr)
    (htok : cfg.token.getD "" ≠ "")
    (howner : cfg.repoOwner ≠ "") (hname : cfg.repoName ≠ "") :
    (∀ cfg2 : GitHubConfig, ∀ rg2, cfg2.token.getD "" = "" →
      onModuleInit cfg2 rg2 = .error (.raised (.js "GITHUB_TOKEN is not defined"))) ∧
    (∀ cfg2 : GitHubConfig, ∀ rg2, cfg2.token.getD "" ≠ "" →
      (cfg2.repoOwner = "" ∨ cfg2.repoName = "") →
      onModuleInit cfg2 rg2 =
        .error (.raised (.js "GITHUB_REPO_OWNER or GITHUB_REPO_NAME is not defined"))) ∧
    onModuleInit cfg (.fail e) = .error (.raised e) ∧
    onModuleInit cfg (.ok branch) = .ok branch := by
  refine ⟨?_, ?_, ?_, ?_⟩
  · intro cfg2 rg2 h
    simp [onModuleInit, h]
  · intro cfg2 rg2 h h2
    rcases h2 with h2 | h2 <;> simp [onModuleInit, h, h2]
  · simp [onModuleInit, htok, howner, hname]
  · simp [onModuleInit, htok, howner, hname]

/-- Witness for C9 at a concrete configuration. -/
theorem c9_init_fatal_or_branch_witness :
    (∀ cfg2 : GitHubConfig, ∀ rg2, cfg2.token.getD "" = "" →
      onModuleInit cfg2 rg2 = .error (.raised (.js "GITHUB_TOKEN is not defined"))) ∧
    (∀ cfg2 : GitHubConfig, ∀ rg2, cfg2.token.getD "" ≠ "" →
      (cfg2.repoOwner = "" ∨ cfg2.repoName = "") →
      onModuleInit cfg2 rg2 =
        .error (.raised (.js "GITHUB_REPO_OWNER or GITHUB_REPO_NAME is not defined"))) ∧
    onModuleInit ⟨some "tok", "zen-browser", "rices"⟩ (.fail (.octo 404 "nf")) =
      .error (.raised (.octo 404 "nf")) ∧
    onModuleInit ⟨some "tok", "zen-browser", "rices"⟩ (.ok "main") = .ok "main" :=
  c9_init_fatal_or_branch ⟨some "tok", "zen-browser", "rices"⟩
    "main" (.octo 404 "nf") (by decide) (by decide) (by decide)

/-- C10: getFileContent collapses a missing file, an existing file with empty
content (the truthiness check on the content field) and a directory path (an
array payload without a content field) into the same null answer, while a
file with non-empty content is returned; so a caller cannot distinguish an
empty existing file from an absent one. -/
theorem c10_empty_content_reads_null
    (sha m c : String) (es : List EntryInfo) (hc : c ≠ "") :
    getFileContent (.file sha "") = .ok none ∧
    getFileContent (.dirListing es) = .ok none ∧
    getFileContent (.fail (.octo 404 m)) = .ok none ∧
    getFileContent (.file sha c) = .ok (some c) := by
  simp [getFileContent, RemoteErr.statusOf, hc]

/-- Witness for C10 at concrete payloads. -/
theorem c10_empty_content_reads_null_witness :
    getFileContent (.file "s" "") = .ok none ∧
    getFileContent (.dirListing [⟨"x", "file"⟩]) = .ok none ∧
    getFileContent (.fail (.octo 404 "nf")) = .ok none ∧
    getFileContent (.file "s" "Zm9v") = .ok (some "Zm9v") :=
  c10_empty_content_reads_null "s" "nf" "Zm9v" [⟨"x", "file"⟩] (by decide)

/-- Helper: every event answered by a delete catch handler comes from the
events of the failed attempt, is the backoff wait, or comes from the retry rest. -/
theorem deleteCatch_mem {filePath : Path} {retries attempt : Nat}
    {e : RemoteErr} {evs : List Event}
    {rest : Except ThrownError Unit × List Event} {ev : Event}
    (h : ev ∈ (deleteCatch filePath retries attempt e evs rest).2) :
    ev ∈ evs ∨ ev = Event.wait (1000 * 2 ^ (attempt - 1)) ∨ ev ∈ rest.2 := by
  unfold deleteCatch at h
  split_ifs at h
  · rcases List.mem_append.mp h with h | h
    · exact Or.inl h
    · rcases List.mem_cons.mp h with h | h
      · exact Or.inr (Or.inl h)
      · exact Or.inr (Or.inr h)
  · exact Or.inl h
  · exact Or.inl h
  · exact Or.inl h

/-- Helper: same as deleteCatch_mem for the write catch handler. -/
theorem writeCatch_mem {filePath : Path} {retries attempt : Nat}
    {e : RemoteErr} {evs : List Event}
    {rest : Except ThrownError Unit × List Event} {ev : Event}
    (h : ev ∈ (writeCatch filePath retries attempt e evs rest).2) :
    ev ∈ evs ∨ ev = Event.wait (1000 * 2 ^ (attempt - 1)) ∨ ev ∈ rest.2 := by
  unfold writeCatch at h
  split_ifs at h
  · rcases List.mem_append.mp h with h | h
    · exact Or.inl h
    · rcases List.mem_cons.mp h with h | h
      · exact Or.inr (Or.inl h)
      · exact Or.inr (Or.inr h)
  · exact Or.inl h
  · exact Or.inl h

/-- Unfolding of a write-loop step whose sha probe fails. -/
theorem createOrUpdateFileLoop_probe_err (env : Nat → WriteEnv) (p : Path)
    (retries attempt n : Nat) (e : RemoteErr)
    (hg : fetchShaForWrite (env attempt).get = .error e) :
    createOrUpdateFileLoop env p retries attempt (n + 1) =
      writeCatch p retries attempt e [.fetchRev p attempt]
        (createOrUpdateFileLoop env p retries (attempt + 1) n) := by
  simp [createOrUpdateFileLoop, hg]

/-- Unfolding of a write-loop step whose probe and submission both succeed. -/
theorem createOrUpdateFileLoop_put_ok (env : Nat → WriteEnv) (p : Path)
    (retries attempt n : Nat) (s : Option String)
    (hg : fetchShaForWrite (env attempt).get = .ok s)
    (hd : (env attempt).put = .ok) :
    createOrUpdateFileLoop env p retries attempt (n + 1) =
      (.ok (), [.fetchRev p attempt, .submitPut p s attempt]) := by
  simp [createOrUpdateFileLoop, hg, hd]

/-- Unfolding of a write-loop step whose submission fails. -/
theorem createOrUpdateFileLoop_put_fail (env : Nat → WriteEnv) (p : Path)
    (retries attempt n : Nat) (s : Option String) (e : RemoteErr)
    (hg : fetchShaForWrite (env attempt).get = .ok s)
    (hd : (env attempt).put = .fail e) :
    createOrUpdateFileLoop env p retries attempt (n + 1) =
      writeCatch p retries attempt e
        [.fetchRev p attempt, .submitPut p s attempt]
        (createOrUpdateFileLoop env p retries (attempt + 1) n) := by
  simp [createOrUpdateFileLoop, hg, hd]

/-- Unfolding of a delete-loop step whose sha fetch fails. -/
theorem deleteFileLoop_probe_err (env : Nat → DeleteEnv) (q : Path)
    (retries attempt n : Nat) (e : RemoteErr)
    (hg : fetchShaForDelete q (env attempt).get = .error e) :
    deleteFileLoop env q retries attempt (n + 1) =
      deleteCatch q retries attempt e [.fetchRev q attempt]
        (deleteFileLoop env q retries (attempt + 1) n) := by
  simp [deleteFileLoop, hg]

/-- Unfolding of a delete-loop step whose fetch and submission both succeed. -/
theorem deleteFileLoop_del_ok (env : Nat → DeleteEnv) (q : Path)
    (retries attempt n : Nat) (s : String)
    (hg : fetchShaForDelete q (env attempt).get = .ok s)
    (hd : (env attempt).del = .ok) :
    deleteFileLoop env q retries attempt (n + 1) =
      (.ok (), [.fetchRev q attempt, .submitDelete q s attempt]) := by
  simp [deleteFileLoop, hg, hd]

/-- Unfolding of a delete-loop step whose submission fails. -/
theorem deleteFileLoop_del_fail (env : Nat → DeleteEnv) (q : Path)
    (retries attempt n : Nat) (s : String) (e : RemoteErr)
    (hg : fetchShaForDelete q (env attempt).get = .ok s)
    (hd : (env attempt).del = .fail e) :
    deleteFileLoop env q retries attempt (n + 1) =
      deleteCatch q retries attempt e
        [.fetchRev q attempt, .submitDelete q s attempt]
        (deleteFileLoop env q retries (attempt + 1) n) := by
  simp [deleteFileLoop, hg, hd]

/-- Helper: the delete retry loop never touches the directory-lock table. -/
theorem deleteFileLoop_no_lockOp (env : Nat → DeleteEnv) (q : Path) (retries : Nat) :
    ∀ fuel attempt, ∀ ev ∈ (deleteFileLoop env q retries attempt fuel).2,
      ev.isLockOp = false := by
  intro fuel
  induction fuel with
  | zero => intro attempt ev h; simp [deleteFileLoop] at h
  | succ n ih =>
    intro attempt ev
    simp only [deleteFileLoop]
    cases hg : fetchShaForDelete q (env attempt).get with
    | error e =>
      intro hev
      rcases deleteCatch_mem hev with h | h | h
      · simp only [List.mem_singleton] at h
        subst h; rfl
      · subst h; rfl
      · exact ih (attempt + 1) ev h
    | ok sha =>
      cases hd : (env attempt).del with
      | ok =>
        intro hev
        simp only [List.mem_cons, List.not_mem_nil, or_false] at hev
        rcases hev with rfl | rfl <;> rfl
      | fail e =>
        intro hev
        rcases deleteCatch_mem hev with h | h | h
        · simp only [List.mem_cons, List.not_mem_nil, or_false] at h
          rcases h with rfl | rfl <;> rfl
        · subst h; rfl
        · exact ih (attempt + 1) ev h

/-- C3 counterexample: a concrete successful deleteFile submits a mutation
while performing no directory-guard operation at all, refuting the claim that
every mutating operation acquires the guard of its parent directory. -/
theorem c3_counterexample :
    ((deleteFile (fun _ => ⟨.file "s" "Zm9v", .ok⟩)
        ["rices", "r1", "data.zenrice"] 3).2.any Event.isSubmit) = true ∧
    ((deleteFile (fun _ => ⟨.file "s" "Zm9v", .ok⟩)
        ["rices", "r1", "data.zenrice"] 3).2.any Event.isLockOp) = false := by
  decide

/-- C3 amended: createOrUpdateFile (create and update) acquires the directory
guard of the normalized parent of the path before anything else it does, but
deleteFile performs no guard operation whatsoever — deletes are not
serialized by the per-directory guard. -/
theorem c3_amended
    (wenv : Nat → WriteEnv) (denv : Nat → DeleteEnv) (p q : Path) (r1 r2 : Nat) :
    (createOrUpdateFile wenv p r1).2.head? = some (.acquireLock (dirname p)) ∧
    ∀ ev ∈ (deleteFile denv q r2).2, ev.isLockOp = false :=
  ⟨rfl, deleteFileLoop_no_lockOp denv q r2 r2 1⟩

/-- Helper: a successful sha probe yields exactly the revision the remote
reported for a file at the path (none when no file is there). -/
theorem fetchShaForWrite_ok_eq {g : ContentResp} {sha : Option String}
    (h : fetchShaForWrite g = .ok sha) : sha = fetchedRevision g := by
  cases g with
  | file s c => simp [fetchShaForWrite] at h; simp [fetchedRevision, ← h]
  | dirListing es => simp [fetchShaForWrite] at h; simp [fetchedRevision, ← h]
  | fail e =>
    by_cases h4 : e.statusOf = some 404 <;> simp [fetchShaForWrite, h4] at h
    simp [fetchedRevision, ← h]

/-- Helper: the delete sha fetch succeeds exactly on a file payload, yielding
its sha. -/
theorem fetchShaForDelete_ok_eq {q : Path} {g : ContentResp} {sha : String}
    (h : fetchShaForDelete q g = .ok sha) : ∃ c, g = .file sha c := by
  cases g with
  | file s c => simp [fetchShaForDelete] at h; exact ⟨c, by rw [h]⟩
  | dirListing es => simp [fetchShaForDelete] at h
  | fail e => simp [fetchShaForDelete] at h

/-- Helper: every put submitted by the write retry loop carries exactly the
revision reported by the probe of its own attempt, and sits immediately after that
probe in the trace. -/
theorem writeLoop_submit_spec (env : Nat → WriteEnv) (p : Path) (retries : Nat) :
    ∀ fuel attempt a sha,
      Event.submitPut p sha a ∈ (createOrUpdateFileLoop env p retries attempt fuel).2 →
      sha = fetchedRevision (env a).get ∧
      ∃ pre post, (createOrUpdateFileLoop env p retries attempt fuel).2 =
        pre ++ Event.fetchRev p a :: Event.submitPut p sha a :: post := by
  intro fuel
  induction fuel with
  | zero => intro attempt a sha h; simp [createOrUpdateFileLoop] at h
  | succ n ih =>
    intro attempt a sha
    rcases hg : fetchShaForWrite (env attempt).get with e | s
    · rw [createOrUpdateFileLoop_probe_err env p retries attempt n e hg]
      unfold writeCatch
      split_ifs with h1 h2
      · intro h
        have h5 : Event.submitPut p sha a ∈
            (createOrUpdateFileLoop env p retries (attempt + 1) n).2 := by
          simpa using h
        obtain ⟨hsha, pre, post, hdec⟩ := ih (attempt + 1) a sha h5
        exact ⟨hsha, Event.fetchRev p attempt ::
          Event.wait (1000 * 2 ^ (attempt - 1)) :: pre, post, by simp [hdec]⟩
      · intro h; simp at h
      · intro h; simp at h
    · rcases hd : (env attempt).put with _ | e
      · rw [createOrUpdateFileLoop_put_ok env p retries attempt n s hg hd]
        intro h
        have h2 : sha = s ∧ a = attempt := by simpa using h
        obtain ⟨h3, h4⟩ := h2
        rw [h3, h4]
        exact ⟨fetchShaForWrite_ok_eq hg, [], [], rfl⟩
      · rw [createOrUpdateFileLoop_put_fail env p retries attempt n s e hg hd]
        unfold writeCatch
        split_ifs with h1 h2
        · intro h
          have h6 : (sha = s ∧ a = attempt) ∨ Event.submitPut p sha a ∈
              (createOrUpdateFileLoop env p retries (attempt + 1) n).2 := by
            simpa [List.mem_append, List.mem_cons] using h
          rcases h6 with ⟨h3, h4⟩ | h6
          · rw [h3, h4]
            refine ⟨fetchShaForWrite_ok_eq hg, [],
              Event.wait (1000 * 2 ^ (attempt - 1)) ::
                (createOrUpdateFileLoop env p retries (attempt + 1) n).2, rfl⟩
          · obtain ⟨hsha, pre, post, hdec⟩ := ih (attempt + 1) a sha h6
            exact ⟨hsha, Event.fetchRev p attempt :: Event.submitPut p s attempt ::
              Event.wait (1000 * 2 ^ (attempt - 1)) :: pre, post, by simp [hdec]⟩
        · intro h
          have h5 : sha = s ∧ a = attempt := by simpa using h
          obtain ⟨h3, h4⟩ := h5
          rw [h3, h4]
          exact ⟨fetchShaForWrite_ok_eq hg, [], [], rfl⟩
        · intro h
          have h5 : sha = s ∧ a = attempt := by simpa using h
          obtain ⟨h3, h4⟩ := h5
          rw [h3, h4]
          exact ⟨fetchShaForWrite_ok_eq hg, [], [], rfl⟩

/-- Helper: every delete submitted by the delete retry loop carries exactly
the sha of the file payload returned by the fetch of its own attempt, and sits
immediately after that fetch in the trace. -/
theorem deleteLoop_submit_spec (env : Nat → DeleteEnv) (q : Path) (retries : Nat) :
    ∀ fuel attempt b shb,
      Event.submitDelete q shb b ∈ (deleteFileLoop env q retries attempt fuel).2 →
      (∃ c, (env b).get = .file shb c) ∧
      ∃ pre post, (deleteFileLoop env q retries attempt fuel).2 =
        pre ++ Event.fetchRev q b :: Event.submitDelete q shb b :: post := by
  intro fuel
  induction fuel with
  | zero => intro attempt b shb h; simp [deleteFileLoop] at h
  | succ n ih =>
    intro attempt b shb
    rcases hg : fetchShaForDelete q (env attempt).get with e | s
    · rw [deleteFileLoop_probe_err env q retries attempt n e hg]
      unfold deleteCatch
      split_ifs with h1 h2 h3
      · intro h
        have h5 : Event.submitDelete q shb b ∈
            (deleteFileLoop env q retries (attempt + 1) n).2 := by
          simpa using h
        obtain ⟨hsha, pre, post, hdec⟩ := ih (attempt + 1) b shb h5
        exact ⟨hsha, Event.fetchRev q attempt ::
          Event.wait (1000 * 2 ^ (attempt - 1)) :: pre, post, by simp [hdec]⟩
      · intro h; simp at h
      · intro h; simp at h
      · intro h; simp at h
    · rcases hd : (env attempt).del with _ | e
      · rw [deleteFileLoop_del_ok env q retries attempt n s hg hd]
        intro h
        have h5 : shb = s ∧ b = attempt := by simpa using h
        obtain ⟨h3, h4⟩ := h5
        rw [h3, h4]
        exact ⟨fetchShaForDelete_ok_eq hg, [], [], rfl⟩
      · rw [deleteFileLoop_del_fail env q retries attempt n s e hg hd]
        unfold deleteCatch
        split_ifs with h1 h2 h3
        · intro h
          have h6 : (shb = s ∧ b = attempt) ∨ Event.submitDelete q shb b ∈
              (deleteFileLoop env q retries (attempt + 1) n).2 := by
            simpa [List.mem_append, List.mem_cons] using h
          rcases h6 with ⟨h3, h4⟩ | h6
          · rw [h3, h4]
            refine ⟨fetchShaForDelete_ok_eq hg, [],
              Event.wait (1000 * 2 ^ (attempt - 1)) ::
                (deleteFileLoop env q retries (attempt + 1) n).2, rfl⟩
          · obtain ⟨hsha, pre, post, hdec⟩ := ih (attempt + 1) b shb h6
            exact ⟨hsha, Event.fetchRev q attempt :: Event.submitDelete q s attempt ::
              Event.wait (1000 * 2 ^ (attempt - 1)) :: pre, post, by simp [hdec]⟩
        · intro h
          have h5 : shb = s ∧ b = attempt := by simpa using h
          obtain ⟨h3, h4⟩ := h5
          rw [h3, h4]
          exact ⟨fetchShaForDelete_ok_eq hg, [], [], rfl⟩
        · intro h
          have h5 : shb = s ∧ b = attempt := by simpa using h
          obtain ⟨h3, h4⟩ := h5
          rw [h3, h4]
          exact ⟨fetchShaForDelete_ok_eq hg, [], [], rfl⟩
        · intro h
          have h5 : shb = s ∧ b = attempt := by simpa using h
          obtain ⟨h3, h4⟩ := h5
          rw [h3, h4]
          exact ⟨fetchShaForDelete_ok_eq hg, [], [], rfl⟩

/-- C4: every mutation submitted to the remote store carries exactly the
revision reported by the revision fetch performed in that same attempt, and
that fetch immediately precedes the submission in the trace (so the fetch is
repeated on every retry attempt); the attached revision is the fetched one —
none exactly when the same-attempt fetch found no file at the path — and a
delete submission always carries the sha of the file payload its attempt
fetched. -/
theorem c4_revision_attached_per_attempt
    (wenv : Nat → WriteEnv) (denv : Nat → DeleteEnv) (p q : Path)
    (r1 r2 a b : Nat) (sha : Option String) (shb : String) :
    (Event.submitPut p sha a ∈ (createOrUpdateFile wenv p r1).2 →
      sha = fetchedRevision (wenv a).get ∧
      ∃ pre post, (createOrUpdateFile wenv p r1).2 =
        pre ++ Event.fetchRev p a :: Event.submitPut p sha a :: post) ∧
    (Event.submitDelete q shb b ∈ (deleteFile denv q r2).2 →
      (∃ c, (denv b).get = .file shb c) ∧
      ∃ pre post, (deleteFile denv q r2).2 =
        pre ++ Event.fetchRev q b :: Event.submitDelete q shb b :: post) := by
  constructor
  · intro h
    have hm : Event.submitPut p sha a ∈ (createOrUpdateFileLoop wenv p r1 1 r1).2 := by
      simpa [createOrUpdateFile] using h
    obtain ⟨hsha, pre, post, hdec⟩ := writeLoop_submit_spec wenv p r1 r1 1 a sha hm
    refine ⟨hsha, Event.acquireLock (dirname p) :: pre,
      post ++ [Event.releaseLock (dirname p)], ?_⟩
    simp [createOrUpdateFile, hdec]
  · intro h
    have hm : Event.submitDelete q shb b ∈ (deleteFileLoop denv q r2 1 r2).2 := by
      simpa [deleteFile] using h
    obtain ⟨hfile, pre, post, hdec⟩ := deleteLoop_submit_spec denv q r2 r2 1 b shb hm
    exact ⟨hfile, pre, post, by simpa [deleteFile] using hdec⟩

/-- Witness for C4 at a concrete write and a concrete delete, each
succeeding on attempt 1 with a stored revision. -/
theorem c4_revision_attached_per_attempt_witness :
    (some "abc" = fetchedRevision
        ((fun _ => (⟨.file "abc" "Zm9v", .ok⟩ : WriteEnv)) 1).get ∧
      ∃ pre post, (createOrUpdateFile (fun _ => ⟨.file "abc" "Zm9v", .ok⟩)
          ["rices", "r1", "rice.json"] 3).2 =
        pre ++ Event.fetchRev ["rices", "r1", "rice.json"] 1 ::
          Event.submitPut ["rices", "r1", "rice.json"] (some "abc") 1 :: post) ∧
    ((∃ c, ((fun _ => (⟨.file "hij" "x", .ok⟩ : DeleteEnv)) 1).get = .file "hij" c) ∧
      ∃ pre post, (deleteFile (fun _ => ⟨.file "hij" "x", .ok⟩)
          ["rices", "r2", "data.zenrice"] 3).2 =
        pre ++ Event.fetchRev ["rices", "r2", "data.zenrice"] 1 ::
          Event.submitDelete ["rices", "r2", "data.zenrice"] "hij" 1 :: post) :=
  ⟨(c4_revision_attached_per_attempt (fun _ => ⟨.file "abc" "Zm9v", .ok⟩)
      (fun _ => ⟨.file "hij" "x", .ok⟩) ["rices", "r1", "rice.json"]
      ["rices", "r2", "data.zenrice"] 3 3 1 1 (some "abc") "hij").1 (by decide),
    (c4_revision_attached_per_attempt (fun _ => ⟨.file "abc" "Zm9v", .ok⟩)
      (fun _ => ⟨.file "hij" "x", .ok⟩) ["rices", "r1", "rice.json"]
      ["rices", "r2", "data.zenrice"] 3 3 1 1 (some "abc") "hij").2 (by decide)⟩

/-- Helper: membership in the names of a directory listing. -/
theorem childNames_mem {fs : Store} {dir : Path} {n : String} :
    n ∈ childNames fs dir ↔ ∃ q ∈ fs, childOf dir q = some n := by
  simp [childNames, List.mem_dedup, List.mem_filterMap]

/-- Helper: under a flat store, a path strictly below the folder is a direct
child. -/
theorem flatUnder_spec {folder q : Path} {n : String}
    (h : flatUnder folder q = true) (hn : childOf folder q = some n) :
    q = folder ++ [n] := by
  unfold flatUnder at h
  rw [hn] at h
  exact of_decide_eq_true h

/-- Helper: deleting a stored file against the quiescent store succeeds on
the first attempt and removes exactly that path. -/
theorem deleteFileStore_mem {fs : Store} {p : Path} (h : p ∈ fs) :
    deleteFileStore fs p = (.ok (), fs.erase p) := by
  simp [deleteFileStore, deleteFile, deleteFileLoop, storeGetContent, h,
    fetchShaForDelete]

/-- Helper: the deletion loop of RicesService.remove, run on a duplicate-free
list of child names that are all stored as direct files of the folder,
succeeds and leaves a store containing no listed child and no placeholder. -/
theorem removeLoop_spec (folder : Path) :
    ∀ (files : List String) (s : Store), files.Nodup → s.Nodup →
      (∀ f ∈ files, folder ++ [f] ∈ s) →
      (removeLoop folder files s).1 = .ok () ∧
      ∀ q ∈ (removeLoop folder files s).2,
        q ∈ s ∧ (∀ f ∈ files, q ≠ folder ++ [f]) ∧
          q ≠ folder ++ [".gitkeep"] := by
  intro files
  induction files with
  | nil =>
    intro s _ _ _
    refine ⟨rfl, ?_⟩
    intro q hq
    simp only [removeLoop, deleteFolder, List.mem_filter,
      decide_eq_true_eq] at hq
    exact ⟨hq.1, fun f hf => absurd hf (List.not_mem_nil f), hq.2⟩
  | cons f rest ih =>
    intro s hnd hsnd hmem
    have hf : folder ++ [f] ∈ s := hmem f (List.mem_cons_self f rest)
    obtain ⟨hfr, hndrest⟩ := List.nodup_cons.mp hnd
    have hred : removeLoop folder (f :: rest) s =
        removeLoop folder rest (s.erase (folder ++ [f])) := by
      simp [removeLoop, deleteFileStore_mem hf]
    have hmem2 : ∀ g ∈ rest, folder ++ [g] ∈ s.erase (folder ++ [f]) := by
      intro g hg
      have hne : folder ++ [g] ≠ folder ++ [f] := by
        intro hh
        have : g = f := by simpa using hh
        exact hfr (this ▸ hg)
      exact (List.mem_erase_of_ne hne).mpr (hmem g (List.mem_cons_of_mem f hg))
    obtain ⟨ih1, ih2⟩ := ih (s.erase (folder ++ [f])) hndrest (hsnd.erase _) hmem2
    rw [hred]
    refine ⟨ih1, ?_⟩
    intro q hq
    obtain ⟨hq1, hq2, hq3⟩ := ih2 q hq
    obtain ⟨hqne, hqs⟩ := (List.Nodup.mem_erase_iff hsnd).mp hq1
    refine ⟨hqs, ?_, hq3⟩
    intro g hg
    rcases List.mem_cons.mp hg with rfl | hg2
    · exact hqne
    · exact hq2 g hg2

/-- C8 counterexample: on a store holding rices/r1/data.bin and the nested
rices/r1/meta/info.json, the removal of rice r1 lists only the top level,
fails on the subdirectory entry, never deletes the nested file, and a
subsequent listing of the folder is not empty — refuting the claimed
depth-first recursive subtree deletion. -/
theorem c8_counterexample :
    (removeRiceFiles
        [["rices", "r1", "data.bin"], ["rices", "r1", "meta", "info.json"]]
        ["rices", "r1"]).2 = [["rices", "r1", "meta", "info.json"]] ∧
    (removeRiceFiles
        [["rices", "r1", "data.bin"], ["rices", "r1", "meta", "info.json"]]
        ["rices", "r1"]).1 ≠ .ok () ∧
    listFilesInDirectory (storeGetContent
        (removeRiceFiles
          [["rices", "r1", "data.bin"], ["rices", "r1", "meta", "info.json"]]
          ["rices", "r1"]).2 ["rices", "r1"]) ≠ .ok [] := by
  decide

/-- C8 amended: the removal enumerates only the immediate children of the
rice folder via a single-level listing and deletes each as a file, then
requests removal of the folder placeholder; when nothing is nested deeper
than one level, every file is removed and a subsequent listing of the folder
is empty — files nested in subdirectories are not reached (see the
counterexample). -/
theorem c8_single_level_removal
    (fs : Store) (folder : Path) (hnd : fs.Nodup)
    (hflat : ∀ q ∈ fs, flatUnder folder q = true) :
    (removeRiceFiles fs folder).1 = .ok () ∧
    listFilesInDirectory
      (storeGetContent (removeRiceFiles fs folder).2 folder) = .ok [] := by
  by_cases hin : folder ∈ fs
  · have h1 : storeGetContent fs folder =
        .file (storeSha fs folder) (storeContent fs folder) := by
      simp [storeGetContent, hin]
    have hred : removeRiceFiles fs folder =
        removeLoop folder [] fs := by
      simp [removeRiceFiles, h1, listFilesInDirectory]
    obtain ⟨hok, hprop⟩ := removeLoop_spec folder [] fs List.nodup_nil hnd
      (fun f hf => absurd hf (List.not_mem_nil f))
    rw [hred]
    refine ⟨hok, ?_⟩
    have hfin : folder ∈ (removeLoop folder [] fs).2 := by
      simp only [removeLoop, deleteFolder, List.mem_filter, decide_eq_true_eq]
      refine ⟨hin, ?_⟩
      intro hh
      have hdrop := congrArg (fun l => l.drop folder.length) hh
      simp at hdrop
    simp [storeGetContent, hfin, listFilesInDirectory]
  · by_cases hch : childNames fs folder = []
    · have h1 : storeGetContent fs folder = .fail (.octo 404 "Not Found") := by
        simp [storeGetContent, hin, hch]
      have hred : removeRiceFiles fs folder = removeLoop folder [] fs := by
        simp [removeRiceFiles, h1, listFilesInDirectory, RemoteErr.statusOf]
      obtain ⟨hok, hprop⟩ := removeLoop_spec folder [] fs List.nodup_nil hnd
        (fun f hf => absurd hf (List.not_mem_nil f))
      rw [hred]
      refine ⟨hok, ?_⟩
      have hsub : ∀ q ∈ (removeLoop folder [] fs).2, q ∈ fs :=
        fun q hq => (hprop q hq).1
      have hnotin : folder ∉ (removeLoop folder [] fs).2 :=
        fun hq => hin (hsub folder hq)
      have hch2 : childNames (removeLoop folder [] fs).2 folder = [] := by
        rw [List.eq_nil_iff_forall_not_mem]
        intro n hn
        obtain ⟨q, hq, hcq⟩ := childNames_mem.mp hn
        have : n ∈ childNames fs folder := childNames_mem.mpr ⟨q, hsub q hq, hcq⟩
        rw [hch] at this
        exact absurd this (List.not_mem_nil n)
      simp [storeGetContent, hnotin, hch2, listFilesInDirectory,
        RemoteErr.statusOf]
    · have h1 : storeGetContent fs folder = .dirListing (storeEntries fs folder) := by
        simp [storeGetContent, hin, hch]
      have hop : List.map EntryInfo.name (storeEntries fs folder) =
          childNames fs folder := by
        unfold storeEntries
        rw [List.map_map]
        have hcomp : (EntryInfo.name ∘ fun n =>
            (⟨n, if folder ++ [n] ∈ fs then "file" else "dir"⟩ : EntryInfo)) = id := by
          funext n; rfl
        rw [hcomp, List.map_id]
      have hnames : listFilesInDirectory (storeGetContent fs folder) =
          .ok (childNames fs folder) := by
        simp [h1, listFilesInDirectory, hop]
      have hred : removeRiceFiles fs folder =
          removeLoop folder (childNames fs folder) fs := by
        simp [removeRiceFiles, hnames]
      have hmemf : ∀ f ∈ childNames fs folder, folder ++ [f] ∈ fs := by
        intro f hf
        obtain ⟨q, hq, hcq⟩ := childNames_mem.mp hf
        rw [← flatUnder_spec (hflat q hq) hcq]
        exact hq
      obtain ⟨hok, hprop⟩ := removeLoop_spec folder (childNames fs folder) fs
        (List.nodup_dedup _) hnd hmemf
      rw [hred]
      refine ⟨hok, ?_⟩
      have hsub : ∀ q ∈ (removeLoop folder (childNames fs folder) fs).2, q ∈ fs :=
        fun q hq => (hprop q hq).1
      have hnotin : folder ∉ (removeLoop folder (childNames fs folder) fs).2 :=
        fun hq => hin (hsub folder hq)
      have hch2 : childNames (removeLoop folder (childNames fs folder) fs).2
          folder = [] := by
        rw [List.eq_nil_iff_forall_not_mem]
        intro n hn
        obtain ⟨q, hq, hcq⟩ := childNames_mem.mp hn
        have hqfs : q ∈ fs := hsub q hq
        have hqeq : q = folder ++ [n] := flatUnder_spec (hflat q hqfs) hcq
        have hnn : n ∈ childNames fs folder := childNames_mem.mpr ⟨q, hqfs, hcq⟩
        exact (hprop q hq).2.1 n hnn hqeq
      simp [storeGetContent, hnotin, hch2, listFilesInDirectory,
        RemoteErr.statusOf]

/-- Witness for C8 amended at a concrete flat store of two files. -/
theorem c8_single_level_removal_witness :
    (removeRiceFiles [["rices", "r1", "data.bin"], ["rices", "r1", "x.txt"]]
        ["rices", "r1"]).1 = .ok () ∧
    listFilesInDirectory (storeGetContent
      (removeRiceFiles [["rices", "r1", "data.bin"], ["rices", "r1", "x.txt"]]
        ["rices", "r1"]).2 ["rices", "r1"]) = .ok [] :=
  c8_single_level_removal
    [["rices", "r1", "data.bin"], ["rices", "r1", "x.txt"]]
    ["rices", "r1"] (by decide) (by decide)

end ZenRices
